import Mathlib

/-
  Verification of the four-bar linkage kinematic solver and dynamic
  simulation engine (FourBarLinkage_MVC.py), as a shallow embedding.

  Machine floats are modelled by real numbers.  Geometry, tracer
  buffers, spring/dashpot state and the solver bookkeeping attributes
  are modelled explicitly; scipy.optimize.fsolve is modelled by a
  SolveOutcome record carrying the returned root and the point of the
  last residual evaluation (whose side effect sets the lTest attribute
  used by the convergence check).
-/

namespace FourBar

/-- A 2-D point, modelling QPointF. -/
@[ext] structure Pt where
  x : ℝ
  y : ℝ

/-- Euclidean distance between two points. -/
noncomputable def ptDist (p q : Pt) : ℝ :=
  Real.sqrt ((q.x - p.x) ^ 2 + (q.y - p.y) ^ 2)

/-- First while loop of RigidLink.rangeAngle: while angle < 0, add 2*pi. -/
noncomputable def rangeAngleUp (a : ℝ) : ℝ :=
  if a < 0 then rangeAngleUp (a + 2 * Real.pi) else a
termination_by (Int.ceil (-a / (2 * Real.pi))).toNat
decreasing_by
  have h2pi : (0 : ℝ) < 2 * Real.pi := by positivity
  have hx : 0 < -a / (2 * Real.pi) := div_pos (by linarith) h2pi
  have heq : -(a + 2 * Real.pi) / (2 * Real.pi) = -a / (2 * Real.pi) - 1 := by
    field_simp
    ring
  have h1 : 0 < Int.ceil (-a / (2 * Real.pi)) := Int.ceil_pos.mpr hx
  rw [heq, Int.ceil_sub_one]
  omega

/-- Second while loop of RigidLink.rangeAngle: while angle > 2*pi, subtract 2*pi. -/
noncomputable def rangeAngleDown (a : ℝ) : ℝ :=
  if 2 * Real.pi < a then rangeAngleDown (a - 2 * Real.pi) else a
termination_by (Int.ceil (a / (2 * Real.pi))).toNat
decreasing_by
  have h2pi : (0 : ℝ) < 2 * Real.pi := by positivity
  have hx : 1 < a / (2 * Real.pi) := (one_lt_div h2pi).mpr (by linarith)
  have heq : (a - 2 * Real.pi) / (2 * Real.pi) = a / (2 * Real.pi) - 1 := by
    field_simp
  have h1 : 1 < Int.ceil (a / (2 * Real.pi)) := by
    exact_mod_cast lt_of_lt_of_le hx (Int.le_ceil _)
  rw [heq, Int.ceil_sub_one]
  omega

/-- RigidLink.rangeAngle: normalize the stored angle by running both loops. -/
noncomputable def rangeAngle (a : ℝ) : ℝ :=
  rangeAngleDown (rangeAngleUp a)

/-- A rigid link: two endpoints plus the stored (cached) length, angle and
mass attributes.  length and angle are mutable attributes in the source,
refreshed only by explicit linkLength / linkAngle calls. -/
structure RigidLink where
  stPt : Pt
  enPt : Pt
  length : ℝ
  angle : ℝ
  mass : ℝ

/-- RigidLink.deltaX. -/
def RigidLink.deltaX (l : RigidLink) : ℝ := l.enPt.x - l.stPt.x

/-- RigidLink.deltaY. -/
def RigidLink.deltaY (l : RigidLink) : ℝ := l.enPt.y - l.stPt.y

/-- Value returned by RigidLink.linkLength: the Euclidean distance between
the current endpoints (the call also stores it into the length attribute). -/
noncomputable def RigidLink.linkLengthVal (l : RigidLink) : ℝ :=
  Real.sqrt (l.deltaX ^ 2 + l.deltaY ^ 2)

/-- Value returned by RigidLink.linkAngle: acos of deltaX over the freshly
recomputed length, negated when deltaY > 0, then normalized by rangeAngle;
a zero-length link yields angle 0. -/
noncomputable def RigidLink.linkAngleVal (l : RigidLink) : ℝ :=
  rangeAngle
    (if l.linkLengthVal = 0 then 0
     else if l.deltaY > 0 then -(Real.arccos (l.deltaX / l.linkLengthVal))
     else Real.arccos (l.deltaX / l.linkLengthVal))

/-- A linear spring: endpoints, the freeLength fixed at construction, the
stored (cached) length and DL attributes, the stored force, and k. -/
structure LinearSpring where
  stPt : Pt
  enPt : Pt
  freeLength : ℝ
  length : ℝ
  DL : ℝ
  force : ℝ
  k : ℝ

/-- Value returned by LinearSpring.getLength: the current endpoint
separation (the call also stores it into the length attribute). -/
noncomputable def LinearSpring.getLengthVal (s : LinearSpring) : ℝ :=
  Real.sqrt ((s.enPt.x - s.stPt.x) ^ 2 + (s.enPt.y - s.stPt.y) ^ 2)

/-- Value returned by LinearSpring.getDL: it reads the stored length
attribute (it does not call getLength). -/
def LinearSpring.getDLVal (s : LinearSpring) : ℝ :=
  s.length - s.freeLength

/-- Value returned by LinearSpring.getForce: k times getDL, hence k times
(stored length - freeLength). -/
def LinearSpring.getForceVal (s : LinearSpring) : ℝ :=
  s.k * s.getDLVal

/-- A dashpot: endpoints, stored length attributes, the externally
injected force, and the damping coefficient c. -/
structure DashPot where
  stPt : Pt
  enPt : Pt
  freeLength : ℝ
  length : ℝ
  DL : ℝ
  force : ℝ
  c : ℝ

/-- Value returned by DashPot.getLength. -/
noncomputable def DashPot.getLengthVal (d : DashPot) : ℝ :=
  Real.sqrt ((d.enPt.x - d.stPt.x) ^ 2 + (d.enPt.y - d.stPt.y) ^ 2)

/-- A tracer: the list of recorded points. -/
structure Tracer where
  pts : List Pt

/-- Tracer.lastPt (total version: default for the unreachable empty case). -/
def Tracer.lastPtD (t : Tracer) : Pt :=
  t.pts.getLastD ⟨0, 0⟩

/-- Outcome of one optimize.fsolve call: the returned root (result[0]) and
the angle at which fn1 was last evaluated -- that last evaluation is the
side effect that leaves self.lTest set when fsolve returns. -/
structure SolveOutcome where
  result : ℝ
  lastEval : ℝ

/-- The FourBarLinkage_Model state touched by moveLinkage, plus the
controller dashpot_force feedback value (none models a missing
controller reference). -/
structure Model where
  InputLink : RigidLink
  OutputLink : RigidLink
  DragLink : RigidLink
  Spring : LinearSpring
  DashPot : FourBar.DashPot
  Tracer0 : Tracer
  Tracer1 : Tracer
  Tracer2 : Tracer
  Tracer3 : Tracer
  prevAlpha : Option ℝ
  prevBeta : Option ℝ
  angle1 : ℝ
  angle2 : ℝ
  lTest : ℝ
  controllerForce : Option ℝ

/-- The input angle computed at the start of moveLinkage from the target
point pt: pi/2 or 3*pi/2 when pt is vertically aligned with the input
pivot, otherwise atan of the screen-inverted slope, plus pi when pt lies
to the left of the pivot. -/
noncomputable def mlAngle1 (s : Model) (pt : Pt) : ℝ :=
  if pt.x = s.InputLink.stPt.x then
    (if pt.y ≤ s.InputLink.stPt.y then Real.pi / 2 else Real.pi * 3 / 2)
  else
    Real.arctan (-(pt.y - s.InputLink.stPt.y) / (pt.x - s.InputLink.stPt.x)) +
      (if pt.x < s.InputLink.stPt.x then Real.pi else 0)

/-- The initial guess for the output angle, computed from the output
current endpoints of the output link.  The numerator of the atan argument reads
DragLink.stPt.y (as the source does), not OutputLink.stPt.y. -/
noncomputable def mlAngle2Guess (s : Model) : ℝ :=
  if s.OutputLink.enPt.x = s.OutputLink.stPt.x then
    (if s.OutputLink.enPt.y < s.OutputLink.stPt.y then Real.pi / 2 else Real.pi * 3 / 2)
  else
    Real.arctan (-(s.OutputLink.enPt.y - s.DragLink.stPt.y) /
        (s.OutputLink.enPt.x - s.OutputLink.stPt.x)) +
      (if s.OutputLink.enPt.x < s.OutputLink.stPt.x then Real.pi else 0)

/-- The input link end point as updated before the solve, from the input
angle and the input link length l1 in use. -/
noncomputable def mlInputEndL (s : Model) (pt : Pt) (l1 : ℝ) : Pt :=
  ⟨s.InputLink.stPt.x + Real.cos (mlAngle1 s pt) * l1,
   s.InputLink.stPt.y - Real.sin (mlAngle1 s pt) * l1⟩

/-- The lTest set by fn1 at a candidate output angle a: the distance between the
candidate output end point (from a and l3) and the already updated input
link end point (x1, y1). -/
noncomputable def mlCouplerLenL (s : Model) (pt : Pt) (l1 l3 a : ℝ) : ℝ :=
  Real.sqrt ((s.OutputLink.stPt.x + l3 * Real.cos a - (mlInputEndL s pt l1).x) ^ 2 +
    (s.OutputLink.stPt.y - l3 * Real.sin a - (mlInputEndL s pt l1).y) ^ 2)

/-- The convergence check that fails a solve: after fsolve returns, the
residual abs (lTest - l2) exceeds 0.001, where lTest is the value fn1 computed at
the last evaluation point of the solver. -/
def mlFailedL (o : SolveOutcome) (s : Model) (pt : Pt) (l1 l3 l2 : ℝ) : Prop :=
  |mlCouplerLenL s pt l1 l3 o.lastEval - l2| > 0.001

noncomputable instance (o : SolveOutcome) (s : Model) (pt : Pt) (l1 l3 l2 : ℝ) :
    Decidable (mlFailedL o s pt l1 l3 l2) := by
  unfold mlFailedL
  infer_instance

/-- The final input angle: on failure revert to prevAlpha when it was
stored by a prior successful solve (getattr default: the freshly computed
angle), on success the freshly computed angle. -/
noncomputable def mlA1F (o : SolveOutcome) (s : Model) (pt : Pt) (l1 l3 l2 : ℝ) : ℝ :=
  if mlFailedL o s pt l1 l3 l2 then (s.prevAlpha.getD (mlAngle1 s pt))
  else mlAngle1 s pt

/-- The final output angle: on failure revert to prevBeta (getattr
default: the initial guess), on success the root returned by fsolve. -/
noncomputable def mlA2F (o : SolveOutcome) (s : Model) (pt : Pt) (l1 l3 l2 : ℝ) : ℝ :=
  if mlFailedL o s pt l1 l3 l2 then (s.prevBeta.getD (mlAngle2Guess s))
  else o.result

/-- The final input link end point: on failure recomputed from the
reverted input angle, on success the point set before the solve. -/
noncomputable def mlInEnF (o : SolveOutcome) (s : Model) (pt : Pt) (l1 l3 l2 : ℝ) : Pt :=
  if mlFailedL o s pt l1 l3 l2 then
    ⟨s.InputLink.stPt.x + Real.cos (mlA1F o s pt l1 l3 l2) * l1,
     s.InputLink.stPt.y - Real.sin (mlA1F o s pt l1 l3 l2) * l1⟩
  else mlInputEndL s pt l1

/-- The final output link end point, from the final output angle and l3. -/
noncomputable def mlOutEnF (o : SolveOutcome) (s : Model) (pt : Pt) (l1 l3 l2 : ℝ) : Pt :=
  ⟨s.OutputLink.stPt.x + l3 * Real.cos (mlA2F o s pt l1 l3 l2),
   s.OutputLink.stPt.y - l3 * Real.sin (mlA2F o s pt l1 l3 l2)⟩

/-- The point appended to Tracer2: the midpoint of the two joint points. -/
noncomputable def mlPtMid (o : SolveOutcome) (s : Model) (pt : Pt) (l1 l3 l2 : ℝ) : Pt :=
  ⟨((mlOutEnF o s pt l1 l3 l2).x + (mlInEnF o s pt l1 l3 l2).x) / 2,
   ((mlOutEnF o s pt l1 l3 l2).y + (mlInEnF o s pt l1 l3 l2).y) / 2⟩

/-- The point appended to Tracer3: midpoint plus half the way toward the
output joint. -/
noncomputable def mlPt3 (o : SolveOutcome) (s : Model) (pt : Pt) (l1 l3 l2 : ℝ) : Pt :=
  ⟨(mlPtMid o s pt l1 l3 l2).x +
     0.5 * ((mlOutEnF o s pt l1 l3 l2).x - (mlPtMid o s pt l1 l3 l2).x),
   (mlPtMid o s pt l1 l3 l2).y +
     0.5 * ((mlOutEnF o s pt l1 l3 l2).y - (mlPtMid o s pt l1 l3 l2).y)⟩

/-- Body of FourBarLinkage_Model.moveLinkage, with the three length reads
(l1, l3, l2) abstracted as parameters so that the stored-attribute reads
of the source and the recompute-from-endpoints reading of the spec can be
compared.  o is the fsolve outcome for this call. -/
noncomputable def moveLinkageCore (o : SolveOutcome) (s : Model) (pt : Pt)
    (l1 l3 l2 : ℝ) : Model :=
  let inEnF := mlInEnF o s pt l1 l3 l2
  let outEn := mlOutEnF o s pt l1 l3 l2
  let pt1 := inEnF
  let pt0 := outEn
  let ptMid := mlPtMid o s pt l1 l3 l2
  let ptAtt := mlPt3 o s pt l1 l3 l2
  let t1 := s.Tracer1.pts ++ [pt1]
  let t0 := s.Tracer0.pts ++ [pt0]
  let t2 := s.Tracer2.pts ++ [ptMid]
  let t3 := s.Tracer3.pts ++ [ptAtt]
  let springEn := Tracer.lastPtD ⟨t3⟩
  let spring2 : LinearSpring :=
    { s.Spring with
      enPt := springEn
      DL := s.Spring.length - s.Spring.freeLength
      force := s.Spring.k * (s.Spring.length - s.Spring.freeLength) }
  let dash2 : FourBar.DashPot :=
    { s.DashPot with
      enPt := springEn
      force := match s.controllerForce with
        | some f => f
        | none => s.DashPot.force }
  let cap := t1.length ≥ 1000
  { s with
    InputLink := { s.InputLink with enPt := inEnF }
    OutputLink := { s.OutputLink with enPt := outEn }
    DragLink := { s.DragLink with stPt := inEnF, enPt := outEn }
    Spring := spring2
    DashPot := dash2
    Tracer0 := ⟨if cap then t0.drop 1 else t0⟩
    Tracer1 := ⟨if cap then t1.drop 1 else t1⟩
    Tracer2 := ⟨if cap then t2.drop 1 else t2⟩
    Tracer3 := ⟨if cap then t3.drop 1 else t3⟩
    prevAlpha := if mlFailedL o s pt l1 l3 l2 then s.prevAlpha else some (mlAngle1 s pt)
    prevBeta := if mlFailedL o s pt l1 l3 l2 then s.prevBeta else some o.result
    angle1 := mlA1F o s pt l1 l3 l2
    angle2 := mlA2F o s pt l1 l3 l2
    lTest := mlCouplerLenL s pt l1 l3 o.lastEval }

/-- FourBarLinkage_Model.moveLinkage: the link lengths in use are read
from the stored length attributes of the input, output and coupler
(DragLink) links, exactly as lines l1 = self.InputLink.length,
l3 = self.OutputLink.length and the two self.DragLink.length reads do. -/
noncomputable def moveLinkage (o : SolveOutcome) (s : Model) (pt : Pt) : Model :=
  moveLinkageCore o s pt s.InputLink.length s.OutputLink.length s.DragLink.length

/-- Variant of moveLinkage written after the words of the spec rather than the
source: the invariant that angle and length are always recomputed from
current endpoints before use would make the solve read l1, l3 and the
coupler target l2 as the distances between the current endpoints. -/
noncomputable def moveLinkageSpecRecompute (o : SolveOutcome) (s : Model) (pt : Pt) : Model :=
  moveLinkageCore o s pt s.InputLink.linkLengthVal s.OutputLink.linkLengthVal
    s.DragLink.linkLengthVal

/-- FourBarLinkage_Controller.state_equations before its blanket
exception handler: computes I = m * l1 ** 2, raises (error) when I <= 0,
otherwise returns the derivatives of angle and angular velocity with the
injected dashpot force as the damping term. -/
noncomputable def state_equations_raw (l1 dashpotForce m k c θ ω : ℝ) : Except Unit (ℝ × ℝ) :=
  let I := m * l1 ^ 2
  if I ≤ 0 then Except.error ()
  else Except.ok (ω, (-k * (θ - Real.pi / 2) - dashpotForce) / I)

/-- FourBarLinkage_Controller.state_equations as odeint sees it: the
try/except of the method itself catches the ValueError raised for I <= 0, logs
it, and returns [0, 0], so the integrator keeps going. -/
noncomputable def state_equations (l1 dashpotForce m k c θ ω : ℝ) : ℝ × ℝ :=
  match state_equations_raw l1 dashpotForce m k c θ ω with
  | Except.ok v => v
  | Except.error _ => (0, 0)

/-- A sequence of moveLinkage calls: state after n calls, where call i
uses target point p i and fsolve outcome o i. -/
noncomputable def runStates (o : ℕ → SolveOutcome) (p : ℕ → Pt) (s : Model) : ℕ → Model
  | 0 => s
  | n + 1 => moveLinkage (o n) (runStates o p s n) (p n)

lemma rangeAngleUp_of_nonneg {a : ℝ} (h : 0 ≤ a) : rangeAngleUp a = a := by
  rw [rangeAngleUp]
  exact if_neg (not_lt.mpr h)

lemma rangeAngleDown_of_le {a : ℝ} (h : a ≤ 2 * Real.pi) : rangeAngleDown a = a := by
  rw [rangeAngleDown]
  exact if_neg (not_lt.mpr h)

lemma rangeAngle_zero : rangeAngle 0 = 0 := by
  rw [rangeAngle, rangeAngleUp_of_nonneg le_rfl,
    rangeAngleDown_of_le (by positivity)]

/-- On the range produced by the acos step of linkAngle, the normalization
lands in the half-open interval from 0 to 2*pi. -/
lemma rangeAngle_mem {a : ℝ} (h1 : -(2 * Real.pi) ≤ a) (h2 : a ≤ Real.pi) :
    0 ≤ rangeAngle a ∧ rangeAngle a < 2 * Real.pi := by
  have hpi : (0 : ℝ) < Real.pi := Real.pi_pos
  by_cases hneg : a < 0
  · have hstep : rangeAngleUp a = rangeAngleUp (a + 2 * Real.pi) := by
      rw [rangeAngleUp]
      exact if_pos hneg
    have hnn : 0 ≤ a + 2 * Real.pi := by linarith
    rw [rangeAngle, hstep, rangeAngleUp_of_nonneg hnn,
      rangeAngleDown_of_le (by linarith)]
    constructor
    · exact hnn
    · linarith
  · push_neg at hneg
    rw [rangeAngle, rangeAngleUp_of_nonneg hneg, rangeAngleDown_of_le (by linarith)]
    exact ⟨hneg, by linarith⟩

/-- C7: for a link whose endpoints differ, linkLength returns a strictly
positive value and linkAngle returns a value in the interval from 0
(inclusive) to 2*pi (exclusive), via the repeated add/subtract
normalization rangeAngle. -/
theorem linkLength_pos_and_linkAngle_mem (l : RigidLink) (h : l.stPt ≠ l.enPt) :
    0 < l.linkLengthVal ∧ 0 ≤ l.linkAngleVal ∧ l.linkAngleVal < 2 * Real.pi := by
  have hd : l.deltaX ≠ 0 ∨ l.deltaY ≠ 0 := by
    by_contra hc
    push_neg at hc
    apply h
    have hx : l.enPt.x = l.stPt.x := by
      have := hc.1
      unfold RigidLink.deltaX at this
      linarith
    have hy : l.enPt.y = l.stPt.y := by
      have := hc.2
      unfold RigidLink.deltaY at this
      linarith
    ext
    · exact hx.symm
    · exact hy.symm
  have hpos : 0 < l.deltaX ^ 2 + l.deltaY ^ 2 := by
    rcases hd with h1 | h1
    · have hx : 0 < l.deltaX ^ 2 :=
        lt_of_le_of_ne (sq_nonneg _) (Ne.symm (pow_ne_zero 2 h1))
      nlinarith [sq_nonneg l.deltaY]
    · have hy : 0 < l.deltaY ^ 2 :=
        lt_of_le_of_ne (sq_nonneg _) (Ne.symm (pow_ne_zero 2 h1))
      nlinarith [sq_nonneg l.deltaX]
  have hlen : 0 < l.linkLengthVal := by
    unfold RigidLink.linkLengthVal
    exact Real.sqrt_pos.mpr hpos
  refine ⟨hlen, ?_⟩
  unfold RigidLink.linkAngleVal
  rw [if_neg (ne_of_gt hlen)]
  have hpi : (0 : ℝ) < Real.pi := Real.pi_pos
  by_cases hdy : l.deltaY > 0
  · rw [if_pos hdy]
    have ha1 := Real.arccos_nonneg (l.deltaX / l.linkLengthVal)
    have ha2 := Real.arccos_le_pi (l.deltaX / l.linkLengthVal)
    exact rangeAngle_mem (by linarith) (by linarith)
  · rw [if_neg hdy]
    have ha1 := Real.arccos_nonneg (l.deltaX / l.linkLengthVal)
    have ha2 := Real.arccos_le_pi (l.deltaX / l.linkLengthVal)
    exact rangeAngle_mem (by linarith) (by linarith)

/-- C7 witness: the link from the origin to the point with x one and y
zero has distinct endpoints, so the theorem applies to it. -/
theorem linkLength_pos_and_linkAngle_mem_witness :
    0 < (RigidLink.mk ⟨0, 0⟩ ⟨1, 0⟩ 1 0 10).linkLengthVal ∧
    0 ≤ (RigidLink.mk ⟨0, 0⟩ ⟨1, 0⟩ 1 0 10).linkAngleVal ∧
    (RigidLink.mk ⟨0, 0⟩ ⟨1, 0⟩ 1 0 10).linkAngleVal < 2 * Real.pi :=
  linkLength_pos_and_linkAngle_mem _ (by
    intro hc
    have hx := congrArg Pt.x hc
    norm_num at hx)

/-- C8: for a degenerate link (coincident endpoints), linkLength returns
0 and linkAngle returns 0 (the defensive branch), with no NaN. -/
theorem degenerate_link_zero_length_zero_angle (l : RigidLink) (h : l.stPt = l.enPt) :
    l.linkLengthVal = 0 ∧ l.linkAngleVal = 0 := by
  have hdx : l.deltaX = 0 := by
    unfold RigidLink.deltaX
    rw [h]
    ring
  have hdy : l.deltaY = 0 := by
    unfold RigidLink.deltaY
    rw [h]
    ring
  have hlen : l.linkLengthVal = 0 := by
    unfold RigidLink.linkLengthVal
    rw [hdx, hdy]
    simp
  refine ⟨hlen, ?_⟩
  unfold RigidLink.linkAngleVal
  rw [if_pos hlen]
  exact rangeAngle_zero

/-- C8 witness: a link with both endpoints at the origin. -/
theorem degenerate_link_zero_length_zero_angle_witness :
    (RigidLink.mk ⟨0, 0⟩ ⟨0, 0⟩ 0 0 10).linkLengthVal = 0 ∧
    (RigidLink.mk ⟨0, 0⟩ ⟨0, 0⟩ 0 0 10).linkAngleVal = 0 :=
  degenerate_link_zero_length_zero_angle _ rfl

/-- A spring whose stored length attribute (70) is stale: its endpoints
are currently 60 apart.  Such a state arises in moveLinkage, which
reassigns Spring.enPt and then calls getForce without calling getLength. -/
noncomputable def staleSpring : LinearSpring :=
  { stPt := ⟨0, 0⟩, enPt := ⟨60, 0⟩, freeLength := 50, length := 70,
    DL := 20, force := 0, k := 10 }

lemma staleSpring_sep : staleSpring.getLengthVal = 60 := by
  unfold LinearSpring.getLengthVal staleSpring
  norm_num
  rw [show (3600 : ℝ) = 60 ^ 2 by norm_num]
  exact Real.sqrt_sq (by norm_num)

/-- C9 counterexample: a spring with k = 10, freeLength = 50 and current
endpoint separation 60, whose stored length attribute is 70: getForce
returns 200, not k times (separation minus freeLength) and not 100,
because getForce reads the stored length attribute via getDL. -/
theorem getForce_stale_length_counterexample :
    staleSpring.k = 10 ∧ staleSpring.freeLength = 50 ∧
    staleSpring.getLengthVal = 60 ∧
    staleSpring.getForceVal ≠ staleSpring.k * (staleSpring.getLengthVal - staleSpring.freeLength) ∧
    staleSpring.getForceVal ≠ 100 := by
  have hf : staleSpring.getForceVal = 200 := by
    unfold LinearSpring.getForceVal LinearSpring.getDLVal staleSpring
    norm_num
  refine ⟨rfl, rfl, staleSpring_sep, ?_, ?_⟩
  · rw [hf, staleSpring_sep]
    show (200 : ℝ) ≠ staleSpring.k * (60 - staleSpring.freeLength)
    unfold staleSpring
    norm_num
  · rw [hf]
    norm_num

/-- C9 amended: getForce returns k times (stored length attribute minus
freeLength); whenever the stored length attribute agrees with the current
endpoint separation (as after any getLength call), this equals k times
(current separation minus freeLength). -/
theorem getForce_k_times_displacement (sp : LinearSpring)
    (h : sp.length = sp.getLengthVal) :
    sp.getForceVal = sp.k * (sp.getLengthVal - sp.freeLength) := by
  unfold LinearSpring.getForceVal LinearSpring.getDLVal
  rw [h]

/-- C9 witness: the instance from the spec with a fresh length attribute:
k = 10, freeLength = 50, separation 60, stored length 60; the force is
k times (separation minus freeLength), namely 100. -/
theorem getForce_k_times_displacement_witness :
    ({ staleSpring with length := 60, DL := 10 } : LinearSpring).getForceVal =
      ({ staleSpring with length := 60, DL := 10 } : LinearSpring).k *
        (({ staleSpring with length := 60, DL := 10 } : LinearSpring).getLengthVal -
          ({ staleSpring with length := 60, DL := 10 } : LinearSpring).freeLength) :=
  getForce_k_times_displacement _ (by
    have h : ({ staleSpring with length := 60, DL := 10 } : LinearSpring).getLengthVal = 60 := by
      unfold LinearSpring.getLengthVal staleSpring
      norm_num
      rw [show (3600 : ℝ) = 60 ^ 2 by norm_num]
      exact Real.sqrt_sq (by norm_num)
    rw [h])

lemma mlCore_InputLink (o : SolveOutcome) (s : Model) (pt : Pt) (l1 l3 l2 : ℝ) :
    (moveLinkageCore o s pt l1 l3 l2).InputLink =
      { s.InputLink with enPt := mlInEnF o s pt l1 l3 l2 } := rfl

lemma mlCore_OutputLink (o : SolveOutcome) (s : Model) (pt : Pt) (l1 l3 l2 : ℝ) :
    (moveLinkageCore o s pt l1 l3 l2).OutputLink =
      { s.OutputLink with enPt := mlOutEnF o s pt l1 l3 l2 } := rfl

lemma mlCore_DragLink (o : SolveOutcome) (s : Model) (pt : Pt) (l1 l3 l2 : ℝ) :
    (moveLinkageCore o s pt l1 l3 l2).DragLink =
      { s.DragLink with
          stPt := mlInEnF o s pt l1 l3 l2
          enPt := mlOutEnF o s pt l1 l3 l2 } := rfl

lemma mlCore_angle1 (o : SolveOutcome) (s : Model) (pt : Pt) (l1 l3 l2 : ℝ) :
    (moveLinkageCore o s pt l1 l3 l2).angle1 = mlA1F o s pt l1 l3 l2 := rfl

lemma mlCore_angle2 (o : SolveOutcome) (s : Model) (pt : Pt) (l1 l3 l2 : ℝ) :
    (moveLinkageCore o s pt l1 l3 l2).angle2 = mlA2F o s pt l1 l3 l2 := rfl

lemma mlCore_prevBeta (o : SolveOutcome) (s : Model) (pt : Pt) (l1 l3 l2 : ℝ) :
    (moveLinkageCore o s pt l1 l3 l2).prevBeta =
      (if mlFailedL o s pt l1 l3 l2 then s.prevBeta else some o.result) := rfl

lemma mlCore_Tracer0 (o : SolveOutcome) (s : Model) (pt : Pt) (l1 l3 l2 : ℝ) :
    (moveLinkageCore o s pt l1 l3 l2).Tracer0.pts =
      (if (s.Tracer1.pts ++ [mlInEnF o s pt l1 l3 l2]).length ≥ 1000
       then (s.Tracer0.pts ++ [mlOutEnF o s pt l1 l3 l2]).drop 1
       else s.Tracer0.pts ++ [mlOutEnF o s pt l1 l3 l2]) := rfl

lemma mlCore_Tracer1 (o : SolveOutcome) (s : Model) (pt : Pt) (l1 l3 l2 : ℝ) :
    (moveLinkageCore o s pt l1 l3 l2).Tracer1.pts =
      (if (s.Tracer1.pts ++ [mlInEnF o s pt l1 l3 l2]).length ≥ 1000
       then (s.Tracer1.pts ++ [mlInEnF o s pt l1 l3 l2]).drop 1
       else s.Tracer1.pts ++ [mlInEnF o s pt l1 l3 l2]) := rfl

lemma mlCore_Tracer2 (o : SolveOutcome) (s : Model) (pt : Pt) (l1 l3 l2 : ℝ) :
    (moveLinkageCore o s pt l1 l3 l2).Tracer2.pts =
      (if (s.Tracer1.pts ++ [mlInEnF o s pt l1 l3 l2]).length ≥ 1000
       then (s.Tracer2.pts ++ [mlPtMid o s pt l1 l3 l2]).drop 1
       else s.Tracer2.pts ++ [mlPtMid o s pt l1 l3 l2]) := rfl

lemma mlCore_Tracer3 (o : SolveOutcome) (s : Model) (pt : Pt) (l1 l3 l2 : ℝ) :
    (moveLinkageCore o s pt l1 l3 l2).Tracer3.pts =
      (if (s.Tracer1.pts ++ [mlInEnF o s pt l1 l3 l2]).length ≥ 1000
       then (s.Tracer3.pts ++ [mlPt3 o s pt l1 l3 l2]).drop 1
       else s.Tracer3.pts ++ [mlPt3 o s pt l1 l3 l2]) := rfl

/-- C1: after a solve that passes the residual check (with the last solver
evaluation at the returned root, which is how fsolve reports its
residual), the distance between the end point of the input link and the
end point of the output link differs from the coupler length l2 = DragLink.length by
at most 0.001. -/
theorem moveLinkage_success_coupler_constraint (o : SolveOutcome) (s : Model) (pt : Pt)
    (hLast : o.lastEval = o.result)
    (hok : ¬ mlFailedL o s pt s.InputLink.length s.OutputLink.length s.DragLink.length) :
    |ptDist (moveLinkage o s pt).InputLink.enPt (moveLinkage o s pt).OutputLink.enPt -
      s.DragLink.length| ≤ 0.001 := by
  have hIn : (moveLinkage o s pt).InputLink.enPt =
      mlInputEndL s pt s.InputLink.length := by
    rw [moveLinkage, mlCore_InputLink]
    simp only [mlInEnF, if_neg hok]
  have hOut : (moveLinkage o s pt).OutputLink.enPt =
      (⟨s.OutputLink.stPt.x + s.OutputLink.length * Real.cos o.result,
        s.OutputLink.stPt.y - s.OutputLink.length * Real.sin o.result⟩ : Pt) := by
    rw [moveLinkage, mlCore_OutputLink]
    simp only [mlOutEnF, mlA2F, if_neg hok]
  have hEq : ptDist (mlInputEndL s pt s.InputLink.length)
      (⟨s.OutputLink.stPt.x + s.OutputLink.length * Real.cos o.result,
        s.OutputLink.stPt.y - s.OutputLink.length * Real.sin o.result⟩ : Pt) =
      mlCouplerLenL s pt s.InputLink.length s.OutputLink.length o.result := rfl
  rw [hIn, hOut, hEq]
  unfold mlFailedL at hok
  rw [hLast] at hok
  exact not_lt.mp hok

/-- C2: when the residual check fails and a previous successful solve has
stored prevAlpha and prevBeta, and the current geometry is the one that
successful solve produced, moveLinkage reverts the input and output
angles to the stored values and the resulting input, output, and coupler
links equal the pre-call ones exactly; the call returns a normal state,
not an error. -/
theorem moveLinkage_failed_holds_previous (o : SolveOutcome) (s : Model) (pt : Pt)
    (a b : ℝ) (hA : s.prevAlpha = some a) (hB : s.prevBeta = some b)
    (hInGeom : s.InputLink.enPt =
      ⟨s.InputLink.stPt.x + Real.cos a * s.InputLink.length,
       s.InputLink.stPt.y - Real.sin a * s.InputLink.length⟩)
    (hOutGeom : s.OutputLink.enPt =
      ⟨s.OutputLink.stPt.x + s.OutputLink.length * Real.cos b,
       s.OutputLink.stPt.y - s.OutputLink.length * Real.sin b⟩)
    (hDragSt : s.DragLink.stPt = s.InputLink.enPt)
    (hDragEn : s.DragLink.enPt = s.OutputLink.enPt)
    (hfail : mlFailedL o s pt s.InputLink.length s.OutputLink.length s.DragLink.length) :
    (moveLinkage o s pt).angle1 = a ∧ (moveLinkage o s pt).angle2 = b ∧
    (moveLinkage o s pt).InputLink = s.InputLink ∧
    (moveLinkage o s pt).OutputLink = s.OutputLink ∧
    (moveLinkage o s pt).DragLink = s.DragLink := by
  have hA1 : mlA1F o s pt s.InputLink.length s.OutputLink.length s.DragLink.length = a := by
    simp only [mlA1F, if_pos hfail, hA, Option.getD_some]
  have hA2 : mlA2F o s pt s.InputLink.length s.OutputLink.length s.DragLink.length = b := by
    simp only [mlA2F, if_pos hfail, hB, Option.getD_some]
  have hInF : mlInEnF o s pt s.InputLink.length s.OutputLink.length s.DragLink.length =
      s.InputLink.enPt := by
    simp only [mlInEnF, if_pos hfail, hA1]
    exact hInGeom.symm
  have hOutF : mlOutEnF o s pt s.InputLink.length s.OutputLink.length s.DragLink.length =
      s.OutputLink.enPt := by
    simp only [mlOutEnF, hA2]
    exact hOutGeom.symm
  refine ⟨?_, ?_, ?_, ?_, ?_⟩
  · rw [moveLinkage, mlCore_angle1, hA1]
  · rw [moveLinkage, mlCore_angle2, hA2]
  · rw [moveLinkage, mlCore_InputLink, hInF]
  · rw [moveLinkage, mlCore_OutputLink, hOutF]
  · rw [moveLinkage, mlCore_DragLink, hInF, hOutF, ← hDragSt, ← hDragEn]

/-- A concrete model state: input pivot at the origin, output pivot at
x = 4, both rotating links of stored length 1 hanging straight down
(angle pi/2 in the screen-inverted convention), coupler stored length 4,
previous converged angles pi/2. -/
noncomputable def baseState : Model :=
  { InputLink := { stPt := ⟨0, 0⟩, enPt := ⟨0, -1⟩, length := 1, angle := 0, mass := 10 }
    OutputLink := { stPt := ⟨4, 0⟩, enPt := ⟨4, -1⟩, length := 1, angle := 0, mass := 10 }
    DragLink := { stPt := ⟨0, -1⟩, enPt := ⟨4, -1⟩, length := 4, angle := 0, mass := 10 }
    Spring :=
      { stPt := ⟨4, 0⟩, enPt := ⟨3, -1⟩, freeLength := 1, length := 1, DL := 0, force := 0, k := 10 }
    DashPot :=
      { stPt := ⟨4, 0⟩, enPt := ⟨3, -1⟩, freeLength := 1, length := 1, DL := 0, force := 0, c := 10 }
    Tracer0 := ⟨[⟨4, -1⟩]⟩
    Tracer1 := ⟨[⟨0, -1⟩]⟩
    Tracer2 := ⟨[⟨2, -1⟩]⟩
    Tracer3 := ⟨[⟨3, -1⟩]⟩
    prevAlpha := some (Real.pi / 2)
    prevBeta := some (Real.pi / 2)
    angle1 := Real.pi / 2
    angle2 := Real.pi / 2
    lTest := 4
    controllerForce := none }

lemma sqrt_eq_of_sq {x y : ℝ} (hy : 0 ≤ y) (h : x = y ^ 2) : Real.sqrt x = y := by
  rw [h]
  exact Real.sqrt_sq hy

lemma baseState_angle1 : mlAngle1 baseState ⟨0, -5⟩ = Real.pi / 2 := by
  norm_num [mlAngle1, baseState]

lemma baseState_inputEnd : mlInputEndL baseState ⟨0, -5⟩ baseState.InputLink.length =
    (⟨0, -1⟩ : Pt) := by
  simp only [mlInputEndL]
  rw [baseState_angle1]
  norm_num [baseState, Pt.mk.injEq, Real.cos_pi_div_two, Real.sin_pi_div_two]

lemma baseState_couplerLen :
    mlCouplerLenL baseState ⟨0, -5⟩ baseState.InputLink.length
      baseState.OutputLink.length (Real.pi / 2) = 4 := by
  simp only [mlCouplerLenL]
  rw [baseState_inputEnd]
  apply sqrt_eq_of_sq (by norm_num)
  norm_num [baseState, Real.cos_pi_div_two, Real.sin_pi_div_two]

/-- C1 witness: from baseState, dragging to the point straight below the
input pivot with the solver returning pi/2 passes the residual check, and
the constraint bound holds there. -/
theorem moveLinkage_success_coupler_constraint_witness :
    |ptDist (moveLinkage ⟨Real.pi / 2, Real.pi / 2⟩ baseState ⟨0, -5⟩).InputLink.enPt
      (moveLinkage ⟨Real.pi / 2, Real.pi / 2⟩ baseState ⟨0, -5⟩).OutputLink.enPt -
      baseState.DragLink.length| ≤ 0.001 :=
  moveLinkage_success_coupler_constraint ⟨Real.pi / 2, Real.pi / 2⟩ baseState ⟨0, -5⟩ rfl
    (by
      unfold mlFailedL
      rw [show (SolveOutcome.mk (Real.pi / 2) (Real.pi / 2)).lastEval = Real.pi / 2 from rfl,
        baseState_couplerLen]
      norm_num [baseState])

/-- baseState with an unreachable coupler target: the stored coupler
length is 100, so the residual check fails for this drag. -/
noncomputable def failState : Model :=
  { baseState with DragLink := { baseState.DragLink with length := 100 } }

/-- C2 witness: at failState the residual check fails and the geometry is
held exactly at the pre-call configuration stored by the previous
successful solve. -/
theorem moveLinkage_failed_holds_previous_witness :
    (moveLinkage ⟨Real.pi / 2, Real.pi / 2⟩ failState ⟨0, -5⟩).angle1 = Real.pi / 2 ∧
    (moveLinkage ⟨Real.pi / 2, Real.pi / 2⟩ failState ⟨0, -5⟩).angle2 = Real.pi / 2 ∧
    (moveLinkage ⟨Real.pi / 2, Real.pi / 2⟩ failState ⟨0, -5⟩).InputLink = failState.InputLink ∧
    (moveLinkage ⟨Real.pi / 2, Real.pi / 2⟩ failState ⟨0, -5⟩).OutputLink = failState.OutputLink ∧
    (moveLinkage ⟨Real.pi / 2, Real.pi / 2⟩ failState ⟨0, -5⟩).DragLink = failState.DragLink :=
  moveLinkage_failed_holds_previous ⟨Real.pi / 2, Real.pi / 2⟩ failState ⟨0, -5⟩
    (Real.pi / 2) (Real.pi / 2)
    (by simp only [failState, baseState])
    (by simp only [failState, baseState])
    (by
      simp only [failState, baseState]
      norm_num [Pt.mk.injEq, Real.cos_pi_div_two, Real.sin_pi_div_two])
    (by
      simp only [failState, baseState]
      norm_num [Pt.mk.injEq, Real.cos_pi_div_two, Real.sin_pi_div_two])
    (by simp only [failState, baseState])
    (by simp only [failState, baseState])
    (by
      unfold mlFailedL
      have hsame : mlCouplerLenL failState ⟨0, -5⟩ failState.InputLink.length
          failState.OutputLink.length (Real.pi / 2) = 4 := baseState_couplerLen
      rw [show (SolveOutcome.mk (Real.pi / 2) (Real.pi / 2)).lastEval = Real.pi / 2 from rfl,
        hsame]
      norm_num [failState, baseState])

/-- C4: when the mass is nonpositive at integration time, the moment of
inertia I = m * l1 ^ 2 is nonpositive, and state_equations raises -- but
its own exception handler absorbs the raise and hands odeint the
derivative (0, 0), so the integration is not aborted and no error
reaches startSimulation. -/
theorem state_equations_mass_nonpos_swallowed (l1 dashF m k c θ ω : ℝ) (hm : m ≤ 0) :
    state_equations_raw l1 dashF m k c θ ω = Except.error () ∧
    state_equations l1 dashF m k c θ ω = (0, 0) := by
  have hI : m * l1 ^ 2 ≤ 0 := by nlinarith [sq_nonneg l1]
  have h1 : state_equations_raw l1 dashF m k c θ ω = Except.error () := by
    simp only [state_equations_raw]
    rw [if_pos hI]
  refine ⟨h1, ?_⟩
  simp only [state_equations]
  rw [h1]

/-- C4 witness: a concrete nonpositive mass. -/
theorem state_equations_mass_nonpos_swallowed_witness :
    state_equations_raw 10 0 (-1) 100 50 0 0 = Except.error () ∧
    state_equations 10 0 (-1) 100 50 0 0 = (0, 0) :=
  state_equations_mass_nonpos_swallowed 10 0 (-1) 100 50 0 0 (by norm_num)

/-- C10: every moveLinkage call -- converged or held-previous alike --
appends exactly one point to each of the four tracers, then applies the
same head eviction to all four when Tracer1 hits the bound; equal tracer
lengths are therefore preserved. -/
theorem moveLinkage_appends_one_point_each (o : SolveOutcome) (s : Model) (pt : Pt)
    (h0 : s.Tracer0.pts.length = s.Tracer1.pts.length)
    (h2 : s.Tracer2.pts.length = s.Tracer1.pts.length)
    (h3 : s.Tracer3.pts.length = s.Tracer1.pts.length) :
    ((moveLinkage o s pt).Tracer0.pts =
      (if s.Tracer1.pts.length + 1 ≥ 1000
       then (s.Tracer0.pts ++ [mlOutEnF o s pt s.InputLink.length s.OutputLink.length s.DragLink.length]).drop 1
       else s.Tracer0.pts ++ [mlOutEnF o s pt s.InputLink.length s.OutputLink.length s.DragLink.length]) ∧
     (moveLinkage o s pt).Tracer1.pts =
      (if s.Tracer1.pts.length + 1 ≥ 1000
       then (s.Tracer1.pts ++ [mlInEnF o s pt s.InputLink.length s.OutputLink.length s.DragLink.length]).drop 1
       else s.Tracer1.pts ++ [mlInEnF o s pt s.InputLink.length s.OutputLink.length s.DragLink.length]) ∧
     (moveLinkage o s pt).Tracer2.pts =
      (if s.Tracer1.pts.length + 1 ≥ 1000
       then (s.Tracer2.pts ++ [mlPtMid o s pt s.InputLink.length s.OutputLink.length s.DragLink.length]).drop 1
       else s.Tracer2.pts ++ [mlPtMid o s pt s.InputLink.length s.OutputLink.length s.DragLink.length]) ∧
     (moveLinkage o s pt).Tracer3.pts =
      (if s.Tracer1.pts.length + 1 ≥ 1000
       then (s.Tracer3.pts ++ [mlPt3 o s pt s.InputLink.length s.OutputLink.length s.DragLink.length]).drop 1
       else s.Tracer3.pts ++ [mlPt3 o s pt s.InputLink.length s.OutputLink.length s.DragLink.length])) ∧
    ((moveLinkage o s pt).Tracer0.pts.length = (moveLinkage o s pt).Tracer1.pts.length ∧
     (moveLinkage o s pt).Tracer2.pts.length = (moveLinkage o s pt).Tracer1.pts.length ∧
     (moveLinkage o s pt).Tracer3.pts.length = (moveLinkage o s pt).Tracer1.pts.length) := by
  have hg : (s.Tracer1.pts ++ [mlInEnF o s pt s.InputLink.length s.OutputLink.length
      s.DragLink.length]).length = s.Tracer1.pts.length + 1 := by
    simp
  have e0 := mlCore_Tracer0 o s pt s.InputLink.length s.OutputLink.length s.DragLink.length
  have e1 := mlCore_Tracer1 o s pt s.InputLink.length s.OutputLink.length s.DragLink.length
  have e2 := mlCore_Tracer2 o s pt s.InputLink.length s.OutputLink.length s.DragLink.length
  have e3 := mlCore_Tracer3 o s pt s.InputLink.length s.OutputLink.length s.DragLink.length
  rw [hg] at e0 e1 e2 e3
  refine ⟨⟨?_, ?_, ?_, ?_⟩, ?_, ?_, ?_⟩
  · rw [moveLinkage]
    exact e0
  · rw [moveLinkage]
    exact e1
  · rw [moveLinkage]
    exact e2
  · rw [moveLinkage]
    exact e3
  · rw [moveLinkage, e0, e1]
    by_cases hcap : s.Tracer1.pts.length + 1 ≥ 1000
    · rw [if_pos hcap, if_pos hcap]
      simp [h0]
    · rw [if_neg hcap, if_neg hcap]
      simp [h0]
  · rw [moveLinkage, e2, e1]
    by_cases hcap : s.Tracer1.pts.length + 1 ≥ 1000
    · rw [if_pos hcap, if_pos hcap]
      simp [h2]
    · rw [if_neg hcap, if_neg hcap]
      simp [h2]
  · rw [moveLinkage, e3, e1]
    by_cases hcap : s.Tracer1.pts.length + 1 ≥ 1000
    · rw [if_pos hcap, if_pos hcap]
      simp [h3]
    · rw [if_neg hcap, if_neg hcap]
      simp [h3]

/-- C10 witness: the append-one-point-each property at a concrete state,
outcome and target point. -/
theorem moveLinkage_appends_one_point_each_witness :
    ((moveLinkage ⟨Real.pi / 2, Real.pi / 2⟩ baseState ⟨0, -5⟩).Tracer0.pts =
      (if baseState.Tracer1.pts.length + 1 ≥ 1000
       then (baseState.Tracer0.pts ++ [mlOutEnF ⟨Real.pi / 2, Real.pi / 2⟩ baseState ⟨0, -5⟩ baseState.InputLink.length baseState.OutputLink.length baseState.DragLink.length]).drop 1
       else baseState.Tracer0.pts ++ [mlOutEnF ⟨Real.pi / 2, Real.pi / 2⟩ baseState ⟨0, -5⟩ baseState.InputLink.length baseState.OutputLink.length baseState.DragLink.length]) ∧
     (moveLinkage ⟨Real.pi / 2, Real.pi / 2⟩ baseState ⟨0, -5⟩).Tracer1.pts =
      (if baseState.Tracer1.pts.length + 1 ≥ 1000
       then (baseState.Tracer1.pts ++ [mlInEnF ⟨Real.pi / 2, Real.pi / 2⟩ baseState ⟨0, -5⟩ baseState.InputLink.length baseState.OutputLink.length baseState.DragLink.length]).drop 1
       else baseState.Tracer1.pts ++ [mlInEnF ⟨Real.pi / 2, Real.pi / 2⟩ baseState ⟨0, -5⟩ baseState.InputLink.length baseState.OutputLink.length baseState.DragLink.length]) ∧
     (moveLinkage ⟨Real.pi / 2, Real.pi / 2⟩ baseState ⟨0, -5⟩).Tracer2.pts =
      (if baseState.Tracer1.pts.length + 1 ≥ 1000
       then (baseState.Tracer2.pts ++ [mlPtMid ⟨Real.pi / 2, Real.pi / 2⟩ baseState ⟨0, -5⟩ baseState.InputLink.length baseState.OutputLink.length baseState.DragLink.length]).drop 1
       else baseState.Tracer2.pts ++ [mlPtMid ⟨Real.pi / 2, Real.pi / 2⟩ baseState ⟨0, -5⟩ baseState.InputLink.length baseState.OutputLink.length baseState.DragLink.length]) ∧
     (moveLinkage ⟨Real.pi / 2, Real.pi / 2⟩ baseState ⟨0, -5⟩).Tracer3.pts =
      (if baseState.Tracer1.pts.length + 1 ≥ 1000
       then (baseState.Tracer3.pts ++ [mlPt3 ⟨Real.pi / 2, Real.pi / 2⟩ baseState ⟨0, -5⟩ baseState.InputLink.length baseState.OutputLink.length baseState.DragLink.length]).drop 1
       else baseState.Tracer3.pts ++ [mlPt3 ⟨Real.pi / 2, Real.pi / 2⟩ baseState ⟨0, -5⟩ baseState.InputLink.length baseState.OutputLink.length baseState.DragLink.length])) ∧
    ((moveLinkage ⟨Real.pi / 2, Real.pi / 2⟩ baseState ⟨0, -5⟩).Tracer0.pts.length =
       (moveLinkage ⟨Real.pi / 2, Real.pi / 2⟩ baseState ⟨0, -5⟩).Tracer1.pts.length ∧
     (moveLinkage ⟨Real.pi / 2, Real.pi / 2⟩ baseState ⟨0, -5⟩).Tracer2.pts.length =
       (moveLinkage ⟨Real.pi / 2, Real.pi / 2⟩ baseState ⟨0, -5⟩).Tracer1.pts.length ∧
     (moveLinkage ⟨Real.pi / 2, Real.pi / 2⟩ baseState ⟨0, -5⟩).Tracer3.pts.length =
       (moveLinkage ⟨Real.pi / 2, Real.pi / 2⟩ baseState ⟨0, -5⟩).Tracer1.pts.length) :=
  moveLinkage_appends_one_point_each ⟨Real.pi / 2, Real.pi / 2⟩ baseState ⟨0, -5⟩
    (by simp [baseState]) (by simp [baseState]) (by simp [baseState])

/-- The point appended to Tracer1 (the input joint point) by call i of a
run of moveLinkage calls. -/
noncomputable def runPt1 (o : ℕ → SolveOutcome) (p : ℕ → Pt) (s : Model) (i : ℕ) : Pt :=
  mlInEnF (o i) (runStates o p s i) (p i) (runStates o p s i).InputLink.length
    (runStates o p s i).OutputLink.length (runStates o p s i).DragLink.length

/-- The point appended to Tracer0 (the output joint point) by call i. -/
noncomputable def runPt0 (o : ℕ → SolveOutcome) (p : ℕ → Pt) (s : Model) (i : ℕ) : Pt :=
  mlOutEnF (o i) (runStates o p s i) (p i) (runStates o p s i).InputLink.length
    (runStates o p s i).OutputLink.length (runStates o p s i).DragLink.length

/-- The point appended to Tracer2 (the coupler midpoint) by call i. -/
noncomputable def runPt2 (o : ℕ → SolveOutcome) (p : ℕ → Pt) (s : Model) (i : ℕ) : Pt :=
  mlPtMid (o i) (runStates o p s i) (p i) (runStates o p s i).InputLink.length
    (runStates o p s i).OutputLink.length (runStates o p s i).DragLink.length

/-- The point appended to Tracer3 (the attachment point) by call i. -/
noncomputable def runPt3 (o : ℕ → SolveOutcome) (p : ℕ → Pt) (s : Model) (i : ℕ) : Pt :=
  mlPt3 (o i) (runStates o p s i) (p i) (runStates o p s i).InputLink.length
    (runStates o p s i).OutputLink.length (runStates o p s i).DragLink.length

/-- Full append history of Tracer0: initial contents then all appended
points in order. -/
noncomputable def hist0 (o : ℕ → SolveOutcome) (p : ℕ → Pt) (s : Model) (n : ℕ) : List Pt :=
  s.Tracer0.pts ++ (List.range n).map (runPt0 o p s)

/-- Full append history of Tracer1. -/
noncomputable def hist1 (o : ℕ → SolveOutcome) (p : ℕ → Pt) (s : Model) (n : ℕ) : List Pt :=
  s.Tracer1.pts ++ (List.range n).map (runPt1 o p s)

/-- Full append history of Tracer2. -/
noncomputable def hist2 (o : ℕ → SolveOutcome) (p : ℕ → Pt) (s : Model) (n : ℕ) : List Pt :=
  s.Tracer2.pts ++ (List.range n).map (runPt2 o p s)

/-- Full append history of Tracer3. -/
noncomputable def hist3 (o : ℕ → SolveOutcome) (p : ℕ → Pt) (s : Model) (n : ℕ) : List Pt :=
  s.Tracer3.pts ++ (List.range n).map (runPt3 o p s)

/-- One append-then-maybe-evict step, applied to a list that is the
999-point suffix of its history, yields the 999-point suffix of the
extended history. -/
lemma capStep (H : List Pt) (a : Pt) (cond : Prop) [Decidable cond]
    (hcond : cond ↔ 1000 ≤ (H.drop (H.length - 999)).length + 1) :
    (if cond then ((H.drop (H.length - 999)) ++ [a]).drop 1
     else (H.drop (H.length - 999)) ++ [a]) =
      (H ++ [a]).drop ((H ++ [a]).length - 999) := by
  have hlen : (H.drop (H.length - 999)).length = H.length - (H.length - 999) :=
    List.length_drop _ _
  by_cases hm : 999 ≤ H.length
  · have hc : cond := hcond.mpr (by omega)
    rw [if_pos hc,
      List.drop_append_of_le_length (by omega : 1 ≤ (H.drop (H.length - 999)).length),
      List.drop_drop,
      show (H ++ [a]).length - 999 = (H.length - 999) + 1 by
        simp only [List.length_append, List.length_singleton]
        omega,
      List.drop_append_of_le_length (by omega : H.length - 999 + 1 ≤ H.length)]
  · have hc : ¬ cond := by
      rw [hcond]
      omega
    rw [if_neg hc, show H.length - 999 = 0 by omega, List.drop_zero,
      show (H ++ [a]).length - 999 = 0 by
        simp only [List.length_append, List.length_singleton]
        omega,
      List.drop_zero]

/-- Along any run of moveLinkage calls starting from tracers of equal
length at most 999, each tracer always equals the 999-point suffix of its
full append history. -/
lemma run_tracer_shape (o : ℕ → SolveOutcome) (p : ℕ → Pt) (s : Model)
    (h0 : s.Tracer0.pts.length = s.Tracer1.pts.length)
    (h2 : s.Tracer2.pts.length = s.Tracer1.pts.length)
    (h3 : s.Tracer3.pts.length = s.Tracer1.pts.length)
    (hsmall : s.Tracer1.pts.length ≤ 999) :
    ∀ n,
      (runStates o p s n).Tracer0.pts =
        (hist0 o p s n).drop ((hist0 o p s n).length - 999) ∧
      (runStates o p s n).Tracer1.pts =
        (hist1 o p s n).drop ((hist1 o p s n).length - 999) ∧
      (runStates o p s n).Tracer2.pts =
        (hist2 o p s n).drop ((hist2 o p s n).length - 999) ∧
      (runStates o p s n).Tracer3.pts =
        (hist3 o p s n).drop ((hist3 o p s n).length - 999) := by
  intro n
  induction n with
  | zero =>
    refine ⟨?_, ?_, ?_, ?_⟩
    · show s.Tracer0.pts = (hist0 o p s 0).drop ((hist0 o p s 0).length - 999)
      rw [show hist0 o p s 0 = s.Tracer0.pts by simp [hist0],
        show s.Tracer0.pts.length - 999 = 0 by omega, List.drop_zero]
    · show s.Tracer1.pts = (hist1 o p s 0).drop ((hist1 o p s 0).length - 999)
      rw [show hist1 o p s 0 = s.Tracer1.pts by simp [hist1],
        show s.Tracer1.pts.length - 999 = 0 by omega, List.drop_zero]
    · show s.Tracer2.pts = (hist2 o p s 0).drop ((hist2 o p s 0).length - 999)
      rw [show hist2 o p s 0 = s.Tracer2.pts by simp [hist2],
        show s.Tracer2.pts.length - 999 = 0 by omega, List.drop_zero]
    · show s.Tracer3.pts = (hist3 o p s 0).drop ((hist3 o p s 0).length - 999)
      rw [show hist3 o p s 0 = s.Tracer3.pts by simp [hist3],
        show s.Tracer3.pts.length - 999 = 0 by omega, List.drop_zero]
  | succ n ih =>
    obtain ⟨ih0, ih1, ih2, ih3⟩ := ih
    have hl0 : (hist0 o p s n).length = s.Tracer0.pts.length + n := by
      simp [hist0]
    have hl1 : (hist1 o p s n).length = s.Tracer1.pts.length + n := by
      simp [hist1]
    have hl2 : (hist2 o p s n).length = s.Tracer2.pts.length + n := by
      simp [hist2]
    have hl3 : (hist3 o p s n).length = s.Tracer3.pts.length + n := by
      simp [hist3]
    have hh0 : hist0 o p s (n + 1) = hist0 o p s n ++ [runPt0 o p s n] := by
      simp [hist0, List.range_succ]
    have hh1 : hist1 o p s (n + 1) = hist1 o p s n ++ [runPt1 o p s n] := by
      simp [hist1, List.range_succ]
    have hh2 : hist2 o p s (n + 1) = hist2 o p s n ++ [runPt2 o p s n] := by
      simp [hist2, List.range_succ]
    have hh3 : hist3 o p s (n + 1) = hist3 o p s n ++ [runPt3 o p s n] := by
      simp [hist3, List.range_succ]
    have hstep : runStates o p s (n + 1) = moveLinkage (o n) (runStates o p s n) (p n) :=
      rfl
    refine ⟨?_, ?_, ?_, ?_⟩
    · rw [hstep, moveLinkage, mlCore_Tracer0, ih0, ih1, hh0]
      apply capStep
      simp only [List.length_append, List.length_singleton, List.length_drop, ge_iff_le]
      rw [hl0, hl1]
      omega
    · rw [hstep, moveLinkage, mlCore_Tracer1, ih1, hh1]
      apply capStep
      simp only [List.length_append, List.length_singleton, List.length_drop, ge_iff_le]
    · rw [hstep, moveLinkage, mlCore_Tracer2, ih2, ih1, hh2]
      apply capStep
      simp only [List.length_append, List.length_singleton, List.length_drop, ge_iff_le]
      rw [hl2, hl1]
      omega
    · rw [hstep, moveLinkage, mlCore_Tracer3, ih3, ih1, hh3]
      apply capStep
      simp only [List.length_append, List.length_singleton, List.length_drop, ge_iff_le]
      rw [hl3, hl1]
      omega

/-- A run in which every call uses the same fsolve outcome pi/2. -/
noncomputable def constOutcome : ℕ → SolveOutcome := fun _ => ⟨Real.pi / 2, Real.pi / 2⟩

/-- A run in which every call drags toward the same target point. -/
noncomputable def constPt : ℕ → Pt := fun _ => ⟨0, -5⟩

/-- C3 counterexample: after 1001 moveLinkage calls from baseState,
Tracer1 holds 999 points, not 1000: the eviction branch fires as soon as
an append reaches length 1000 and immediately drops the head, so the
stable tracer length is 999. -/
theorem tracer_cap_999_not_1000_counterexample :
    (runStates constOutcome constPt baseState 1001).Tracer1.pts.length = 999 ∧
    (runStates constOutcome constPt baseState 1001).Tracer1.pts.length ≠ 1000 := by
  have hshape := run_tracer_shape constOutcome constPt baseState
    (by norm_num [baseState]) (by norm_num [baseState]) (by norm_num [baseState])
    (by norm_num [baseState]) 1001
  obtain ⟨-, hT1, -, -⟩ := hshape
  have hl1 : (hist1 constOutcome constPt baseState 1001).length = 1 + 1001 := by
    simp [hist1, baseState]
  have hlen : (runStates constOutcome constPt baseState 1001).Tracer1.pts.length = 999 := by
    rw [hT1, List.length_drop, hl1]
  exact ⟨hlen, by omega⟩

/-- C3 amended: after more than 1000 moveLinkage calls starting from
tracers that each hold a single initial point, every tracer holds exactly
999 points, namely the most recent 999 appended points in append order
(the initial point and the oldest appended points are evicted FIFO). -/
theorem tracers_capped_at_999_recent_points (o : ℕ → SolveOutcome) (p : ℕ → Pt)
    (s : Model) (h0 : s.Tracer0.pts.length = 1) (h1 : s.Tracer1.pts.length = 1)
    (h2 : s.Tracer2.pts.length = 1) (h3 : s.Tracer3.pts.length = 1)
    (n : ℕ) (hn : 1000 < n) :
    ((runStates o p s n).Tracer0.pts.length = 999 ∧
     (runStates o p s n).Tracer0.pts =
       ((List.range n).map (runPt0 o p s)).drop (n - 999)) ∧
    ((runStates o p s n).Tracer1.pts.length = 999 ∧
     (runStates o p s n).Tracer1.pts =
       ((List.range n).map (runPt1 o p s)).drop (n - 999)) ∧
    ((runStates o p s n).Tracer2.pts.length = 999 ∧
     (runStates o p s n).Tracer2.pts =
       ((List.range n).map (runPt2 o p s)).drop (n - 999)) ∧
    ((runStates o p s n).Tracer3.pts.length = 999 ∧
     (runStates o p s n).Tracer3.pts =
       ((List.range n).map (runPt3 o p s)).drop (n - 999)) := by
  have hshape := run_tracer_shape o p s (by omega) (by omega) (by omega) (by omega) n
  obtain ⟨hs0, hs1, hs2, hs3⟩ := hshape
  have hl0 : (hist0 o p s n).length = 1 + n := by
    simp [hist0, h0]
  have hl1 : (hist1 o p s n).length = 1 + n := by
    simp [hist1, h1]
  have hl2 : (hist2 o p s n).length = 1 + n := by
    simp [hist2, h2]
  have hl3 : (hist3 o p s n).length = 1 + n := by
    simp [hist3, h3]
  refine ⟨⟨?_, ?_⟩, ⟨?_, ?_⟩, ⟨?_, ?_⟩, ⟨?_, ?_⟩⟩
  · rw [hs0, List.length_drop, hl0]
    omega
  · rw [hs0, show (hist0 o p s n).length - 999 = s.Tracer0.pts.length + (n - 999) by
      rw [hl0, h0]; omega, hist0]
    exact List.drop_append (n - 999)
  · rw [hs1, List.length_drop, hl1]
    omega
  · rw [hs1, show (hist1 o p s n).length - 999 = s.Tracer1.pts.length + (n - 999) by
      rw [hl1, h1]; omega, hist1]
    exact List.drop_append (n - 999)
  · rw [hs2, List.length_drop, hl2]
    omega
  · rw [hs2, show (hist2 o p s n).length - 999 = s.Tracer2.pts.length + (n - 999) by
      rw [hl2, h2]; omega, hist2]
    exact List.drop_append (n - 999)
  · rw [hs3, List.length_drop, hl3]
    omega
  · rw [hs3, show (hist3 o p s n).length - 999 = s.Tracer3.pts.length + (n - 999) by
      rw [hl3, h3]; omega, hist3]
    exact List.drop_append (n - 999)

/-- C3 amended witness: the 999-cap statement at a concrete run of 1001
calls from baseState. -/
theorem tracers_capped_at_999_recent_points_witness :
    ((runStates constOutcome constPt baseState 1001).Tracer0.pts.length = 999 ∧
     (runStates constOutcome constPt baseState 1001).Tracer0.pts =
       ((List.range 1001).map (runPt0 constOutcome constPt baseState)).drop (1001 - 999)) ∧
    ((runStates constOutcome constPt baseState 1001).Tracer1.pts.length = 999 ∧
     (runStates constOutcome constPt baseState 1001).Tracer1.pts =
       ((List.range 1001).map (runPt1 constOutcome constPt baseState)).drop (1001 - 999)) ∧
    ((runStates constOutcome constPt baseState 1001).Tracer2.pts.length = 999 ∧
     (runStates constOutcome constPt baseState 1001).Tracer2.pts =
       ((List.range 1001).map (runPt2 constOutcome constPt baseState)).drop (1001 - 999)) ∧
    ((runStates constOutcome constPt baseState 1001).Tracer3.pts.length = 999 ∧
     (runStates constOutcome constPt baseState 1001).Tracer3.pts =
       ((List.range 1001).map (runPt3 constOutcome constPt baseState)).drop (1001 - 999)) :=
  tracers_capped_at_999_recent_points constOutcome constPt baseState
    (by norm_num [baseState]) (by norm_num [baseState]) (by norm_num [baseState])
    (by norm_num [baseState]) 1001 (by norm_num)

/-- baseState with a stale input link length attribute: the stored length
is 10 while the endpoints are 1 apart. -/
noncomputable def staleState : Model :=
  { baseState with InputLink := { baseState.InputLink with length := 10 } }

lemma staleState_angle1 : mlAngle1 staleState ⟨0, -5⟩ = Real.pi / 2 := by
  norm_num [mlAngle1, staleState, baseState]

lemma staleState_a1f (o : SolveOutcome) (l1 l3 l2 : ℝ) :
    mlA1F o staleState ⟨0, -5⟩ l1 l3 l2 = Real.pi / 2 := by
  unfold mlA1F
  split
  · simp [staleState, baseState, staleState_angle1]
  · exact staleState_angle1

/-- The new input link end point lies at the used length l1 straight
below the pivot, whichever branch the solve takes, because the reverted
and the fresh input angle are both pi/2 at staleState. -/
lemma staleState_inEnF (o : SolveOutcome) (l1 l3 l2 : ℝ) :
    mlInEnF o staleState ⟨0, -5⟩ l1 l3 l2 = ⟨0, -l1⟩ := by
  unfold mlInEnF mlInputEndL
  split
  · rw [staleState_a1f]
    norm_num [staleState, baseState, Pt.mk.injEq, Real.cos_pi_div_two, Real.sin_pi_div_two]
  · rw [staleState_angle1]
    norm_num [staleState, baseState, Pt.mk.injEq, Real.cos_pi_div_two, Real.sin_pi_div_two]

lemma staleState_linkLengthVal : staleState.InputLink.linkLengthVal = 1 := by
  unfold RigidLink.linkLengthVal RigidLink.deltaX RigidLink.deltaY
  norm_num [staleState, baseState]

/-- C5 counterexample: moveLinkage places the input link end point using
the stored length attribute (10), not the length recomputed from the
current endpoints (1): the value used is not recomputed before use, so
the code step differs from the spec-worded recompute-before-use step. -/
theorem moveLinkage_stored_length_counterexample :
    staleState.InputLink.length = 10 ∧
    staleState.InputLink.linkLengthVal = 1 ∧
    (moveLinkage ⟨Real.pi / 2, Real.pi / 2⟩ staleState ⟨0, -5⟩).InputLink.enPt = ⟨0, -10⟩ ∧
    (moveLinkageSpecRecompute ⟨Real.pi / 2, Real.pi / 2⟩ staleState ⟨0, -5⟩).InputLink.enPt = ⟨0, -1⟩ ∧
    (moveLinkage ⟨Real.pi / 2, Real.pi / 2⟩ staleState ⟨0, -5⟩).InputLink.enPt ≠
      (moveLinkageSpecRecompute ⟨Real.pi / 2, Real.pi / 2⟩ staleState ⟨0, -5⟩).InputLink.enPt := by
  have hcode : (moveLinkage ⟨Real.pi / 2, Real.pi / 2⟩ staleState ⟨0, -5⟩).InputLink.enPt =
      (⟨0, -10⟩ : Pt) := by
    rw [moveLinkage, mlCore_InputLink]
    show mlInEnF _ _ _ _ _ _ = _
    rw [staleState_inEnF]
    norm_num [staleState, baseState, Pt.mk.injEq]
  have hspec : (moveLinkageSpecRecompute ⟨Real.pi / 2, Real.pi / 2⟩ staleState ⟨0, -5⟩).InputLink.enPt =
      (⟨0, -1⟩ : Pt) := by
    rw [moveLinkageSpecRecompute, mlCore_InputLink]
    show mlInEnF _ _ _ _ _ _ = _
    rw [staleState_inEnF, staleState_linkLengthVal]
  refine ⟨?_, staleState_linkLengthVal, hcode, hspec, ?_⟩
  · show ({ baseState.InputLink with length := 10 } : RigidLink).length = 10
    rfl
  · rw [hcode, hspec]
    intro hc
    have hy := congrArg Pt.y hc
    norm_num at hy

/-- C5 amended: moveLinkage reads the link lengths from the stored length
attributes; whenever those attributes agree with the lengths recomputed
from the current endpoints (as linkLength maintains), the step coincides
with the recompute-before-use step of the spec. -/
theorem moveLinkage_eq_spec_when_lengths_fresh (o : SolveOutcome) (s : Model) (pt : Pt)
    (hl1 : s.InputLink.length = s.InputLink.linkLengthVal)
    (hl3 : s.OutputLink.length = s.OutputLink.linkLengthVal)
    (hl2 : s.DragLink.length = s.DragLink.linkLengthVal) :
    moveLinkage o s pt = moveLinkageSpecRecompute o s pt := by
  rw [moveLinkage, moveLinkageSpecRecompute, hl1, hl3, hl2]

/-- C5 amended witness: baseState has fresh length attributes (1, 1 and
4 match the endpoint distances), and on it the code step and the
spec-worded step agree. -/
theorem moveLinkage_eq_spec_when_lengths_fresh_witness :
    moveLinkage ⟨Real.pi / 2, Real.pi / 2⟩ baseState ⟨0, -5⟩ =
      moveLinkageSpecRecompute ⟨Real.pi / 2, Real.pi / 2⟩ baseState ⟨0, -5⟩ :=
  moveLinkage_eq_spec_when_lengths_fresh ⟨Real.pi / 2, Real.pi / 2⟩ baseState ⟨0, -5⟩
    (by
      unfold RigidLink.linkLengthVal RigidLink.deltaX RigidLink.deltaY
      norm_num [baseState])
    (by
      unfold RigidLink.linkLengthVal RigidLink.deltaX RigidLink.deltaY
      norm_num [baseState])
    (by
      unfold RigidLink.linkLengthVal RigidLink.deltaX RigidLink.deltaY
      norm_num [baseState]
      exact (sqrt_eq_of_sq (by norm_num) (by norm_num)).symm)

/-- A concrete state with two admissible output-angle roots: the input
link hangs from (4, 2) straight down to (4, -2); the output pivot is
(4, 0) with l3 = 2, so the coupler-length-2 constraint circle around
(4, -2) meets the output circle at the angles pi/6 and 5*pi/6, giving the
two output end points (4 + sqrt 3, -1) and (4 - sqrt 3, -1). -/
noncomputable def c6State : Model :=
  { InputLink := { stPt := ⟨4, 2⟩, enPt := ⟨4, -2⟩, length := 4, angle := 0, mass := 10 }
    OutputLink :=
      { stPt := ⟨4, 0⟩, enPt := ⟨4 + Real.sqrt 3, -1⟩, length := 2, angle := 0, mass := 10 }
    DragLink :=
      { stPt := ⟨4, -2⟩, enPt := ⟨4 + Real.sqrt 3, -1⟩, length := 2, angle := 0, mass := 10 }
    Spring :=
      { stPt := ⟨4, 0⟩, enPt := ⟨4, -1⟩, freeLength := 1, length := 1, DL := 0, force := 0, k := 10 }
    DashPot :=
      { stPt := ⟨4, 0⟩, enPt := ⟨4, -1⟩, freeLength := 1, length := 1, DL := 0, force := 0, c := 10 }
    Tracer0 := ⟨[⟨4 + Real.sqrt 3, -1⟩]⟩
    Tracer1 := ⟨[⟨4, -2⟩]⟩
    Tracer2 := ⟨[⟨4, -1⟩]⟩
    Tracer3 := ⟨[⟨4, -1⟩]⟩
    prevAlpha := some (Real.pi / 2)
    prevBeta := some (Real.pi / 6)
    angle1 := Real.pi / 2
    angle2 := Real.pi / 6
    lTest := 2
    controllerForce := none }

/-- An fsolve outcome converging exactly to the root pi/6. -/
noncomputable def c6o1 : SolveOutcome := ⟨Real.pi / 6, Real.pi / 6⟩

/-- An fsolve outcome converging exactly to the other root 5*pi/6. -/
noncomputable def c6o2 : SolveOutcome := ⟨Real.pi - Real.pi / 6, Real.pi - Real.pi / 6⟩

/-- The state after the first call at c6State. -/
noncomputable def c6s1 : Model := moveLinkage c6o1 c6State ⟨4, -5⟩

/-- The state after the second call with the same target point. -/
noncomputable def c6s2 : Model := moveLinkage c6o2 c6s1 ⟨4, -5⟩

lemma c6_angle1 : mlAngle1 c6State ⟨4, -5⟩ = Real.pi / 2 := by
  norm_num [mlAngle1, c6State]

lemma c6_inputEnd : mlInputEndL c6State ⟨4, -5⟩ c6State.InputLink.length =
    (⟨4, -2⟩ : Pt) := by
  simp only [mlInputEndL]
  rw [c6_angle1]
  norm_num [c6State, Pt.mk.injEq, Real.cos_pi_div_two, Real.sin_pi_div_two]

lemma c6_couplerLen1 :
    mlCouplerLenL c6State ⟨4, -5⟩ c6State.InputLink.length
      c6State.OutputLink.length (Real.pi / 6) = 2 := by
  simp only [mlCouplerLenL]
  rw [c6_inputEnd]
  apply sqrt_eq_of_sq (by norm_num)
  have h3 : Real.sqrt 3 ^ 2 = 3 := Real.sq_sqrt (by norm_num)
  simp only [c6State, Real.cos_pi_div_six, Real.sin_pi_div_six]
  linear_combination h3

lemma c6_ok1 : ¬ mlFailedL c6o1 c6State ⟨4, -5⟩ c6State.InputLink.length
    c6State.OutputLink.length c6State.DragLink.length := by
  unfold mlFailedL
  rw [show c6o1.lastEval = Real.pi / 6 from rfl, c6_couplerLen1]
  norm_num [c6State]

lemma c6s1_inStPt : c6s1.InputLink.stPt = (⟨4, 2⟩ : Pt) := by
  simp only [c6s1]
  rw [moveLinkage, mlCore_InputLink]
  simp [c6State]

lemma c6s1_inLen : c6s1.InputLink.length = 4 := by
  simp only [c6s1]
  rw [moveLinkage, mlCore_InputLink]
  simp [c6State]

lemma c6s1_outStPt : c6s1.OutputLink.stPt = (⟨4, 0⟩ : Pt) := by
  simp only [c6s1]
  rw [moveLinkage, mlCore_OutputLink]
  simp [c6State]

lemma c6s1_outLen : c6s1.OutputLink.length = 2 := by
  simp only [c6s1]
  rw [moveLinkage, mlCore_OutputLink]
  simp [c6State]

lemma c6s1_dragLen : c6s1.DragLink.length = 2 := by
  simp only [c6s1]
  rw [moveLinkage, mlCore_DragLink]
  simp [c6State]

lemma c6s1_outEn : c6s1.OutputLink.enPt = (⟨4 + Real.sqrt 3, -1⟩ : Pt) := by
  simp only [c6s1]
  rw [moveLinkage, mlCore_OutputLink]
  show mlOutEnF c6o1 c6State ⟨4, -5⟩ c6State.InputLink.length c6State.OutputLink.length
    c6State.DragLink.length = _
  simp only [mlOutEnF, mlA2F]
  rw [if_neg c6_ok1, show c6o1.result = Real.pi / 6 from rfl]
  simp only [c6State, Real.cos_pi_div_six, Real.sin_pi_div_six, Pt.mk.injEq]
  constructor
  · ring
  · norm_num

lemma c6s1_angle1 : mlAngle1 c6s1 ⟨4, -5⟩ = Real.pi / 2 := by
  unfold mlAngle1
  rw [c6s1_inStPt]
  norm_num

lemma c6s1_inputEnd : mlInputEndL c6s1 ⟨4, -5⟩ c6s1.InputLink.length = (⟨4, -2⟩ : Pt) := by
  simp only [mlInputEndL]
  rw [c6s1_angle1, c6s1_inStPt, c6s1_inLen]
  norm_num [Pt.mk.injEq, Real.cos_pi_div_two, Real.sin_pi_div_two]

lemma c6_couplerLen2 :
    mlCouplerLenL c6s1 ⟨4, -5⟩ c6s1.InputLink.length c6s1.OutputLink.length
      (Real.pi - Real.pi / 6) = 2 := by
  simp only [mlCouplerLenL]
  rw [c6s1_inputEnd, c6s1_outStPt, c6s1_outLen]
  apply sqrt_eq_of_sq (by norm_num)
  rw [Real.cos_pi_sub, Real.sin_pi_sub]
  have h3 : Real.sqrt 3 ^ 2 = 3 := Real.sq_sqrt (by norm_num)
  simp only [Real.cos_pi_div_six, Real.sin_pi_div_six]
  linear_combination h3

lemma c6_ok2 : ¬ mlFailedL c6o2 c6s1 ⟨4, -5⟩ c6s1.InputLink.length
    c6s1.OutputLink.length c6s1.DragLink.length := by
  unfold mlFailedL
  rw [show c6o2.lastEval = Real.pi - Real.pi / 6 from rfl, c6_couplerLen2, c6s1_dragLen]
  norm_num

lemma c6s2_outEn : c6s2.OutputLink.enPt = (⟨4 - Real.sqrt 3, -1⟩ : Pt) := by
  simp only [c6s2]
  rw [moveLinkage, mlCore_OutputLink]
  show mlOutEnF c6o2 c6s1 ⟨4, -5⟩ c6s1.InputLink.length c6s1.OutputLink.length
    c6s1.DragLink.length = _
  simp only [mlOutEnF, mlA2F]
  rw [if_neg c6_ok2, show c6o2.result = Real.pi - Real.pi / 6 from rfl, c6s1_outStPt,
    c6s1_outLen, Real.cos_pi_sub, Real.sin_pi_sub]
  simp only [Real.cos_pi_div_six, Real.sin_pi_div_six, Pt.mk.injEq]
  constructor
  · ring
  · norm_num

/-- C6 counterexample: two consecutive moveLinkage calls with the same
target point, each fed an fsolve outcome that is an exact root of the
residual (evaluated last at the returned root, the fsolve contract), both
passing the residual check -- yet the output link end point after the
second call, (4 - sqrt 3, -1), differs from the one after the first,
(4 + sqrt 3, -1): the solve converged to the other admissible root, so
the sequential double call is not idempotent. -/
theorem moveLinkage_twice_different_roots_counterexample :
    (c6o1.lastEval = c6o1.result ∧ c6o2.lastEval = c6o2.result) ∧
    mlCouplerLenL c6State ⟨4, -5⟩ c6State.InputLink.length c6State.OutputLink.length
      c6o1.result = c6State.DragLink.length ∧
    mlCouplerLenL c6s1 ⟨4, -5⟩ c6s1.InputLink.length c6s1.OutputLink.length
      c6o2.result = c6s1.DragLink.length ∧
    ¬ mlFailedL c6o1 c6State ⟨4, -5⟩ c6State.InputLink.length c6State.OutputLink.length
      c6State.DragLink.length ∧
    ¬ mlFailedL c6o2 c6s1 ⟨4, -5⟩ c6s1.InputLink.length c6s1.OutputLink.length
      c6s1.DragLink.length ∧
    c6s2.OutputLink.enPt ≠ c6s1.OutputLink.enPt := by
  refine ⟨⟨rfl, rfl⟩, ?_, ?_, c6_ok1, c6_ok2, ?_⟩
  · rw [show c6o1.result = Real.pi / 6 from rfl, c6_couplerLen1]
    simp [c6State]
  · rw [show c6o2.result = Real.pi - Real.pi / 6 from rfl, c6_couplerLen2, c6s1_dragLen]
  · rw [c6s2_outEn, c6s1_outEn]
    intro h
    have hx := congrArg Pt.x h
    have h3 : 0 < Real.sqrt 3 := Real.sqrt_pos.mpr (by norm_num)
    simp only at hx
    linarith

/-- C6 amended: after a first call whose solve passes the residual check,
a second call with the same target point reproduces the first call
output link position exactly whenever its own solve either fails the
residual check (the revert restores the converged angles stored by the
first call) or returns the same root; when it instead converges within
tolerance to the other admissible root, the output moves (see the
counterexample), so idempotence holds only up to the choice of root. -/
theorem moveLinkage_twice_same_output (o1 o2 : SolveOutcome) (s : Model) (pt : Pt)
    (h1ok : ¬ mlFailedL o1 s pt s.InputLink.length s.OutputLink.length s.DragLink.length)
    (hcase : mlFailedL o2 (moveLinkage o1 s pt) pt (moveLinkage o1 s pt).InputLink.length
        (moveLinkage o1 s pt).OutputLink.length (moveLinkage o1 s pt).DragLink.length ∨
      o2.result = o1.result) :
    (moveLinkage o2 (moveLinkage o1 s pt) pt).OutputLink.enPt =
      (moveLinkage o1 s pt).OutputLink.enPt ∧
    (moveLinkage o2 (moveLinkage o1 s pt) pt).OutputLink.stPt =
      (moveLinkage o1 s pt).OutputLink.stPt := by
  set s1 := moveLinkage o1 s pt with hs1
  have hOut1 : s1.OutputLink =
      { s.OutputLink with
          enPt := mlOutEnF o1 s pt s.InputLink.length s.OutputLink.length s.DragLink.length } := by
    rw [hs1, moveLinkage, mlCore_OutputLink]
  have hstPt : s1.OutputLink.stPt = s.OutputLink.stPt := by
    rw [hOut1]
  have hlen : s1.OutputLink.length = s.OutputLink.length := by
    rw [hOut1]
  have hprevB : s1.prevBeta = some o1.result := by
    rw [hs1, moveLinkage, mlCore_prevBeta, if_neg h1ok]
  have henPt1 : s1.OutputLink.enPt =
      (⟨s.OutputLink.stPt.x + s.OutputLink.length * Real.cos o1.result,
        s.OutputLink.stPt.y - s.OutputLink.length * Real.sin o1.result⟩ : Pt) := by
    rw [hOut1]
    show mlOutEnF o1 s pt s.InputLink.length s.OutputLink.length s.DragLink.length = _
    simp only [mlOutEnF, mlA2F]
    rw [if_neg h1ok]
  have hA2F2 : mlA2F o2 s1 pt s1.InputLink.length s1.OutputLink.length s1.DragLink.length =
      o1.result := by
    by_cases hfail2 : mlFailedL o2 s1 pt s1.InputLink.length s1.OutputLink.length
      s1.DragLink.length
    · simp only [mlA2F]
      rw [if_pos hfail2, hprevB, Option.getD_some]
    · rcases hcase with hf | heq
      · exact absurd hf hfail2
      · simp only [mlA2F]
        rw [if_neg hfail2, heq]
  have henPt2 : (moveLinkage o2 s1 pt).OutputLink.enPt =
      (⟨s1.OutputLink.stPt.x + s1.OutputLink.length * Real.cos o1.result,
        s1.OutputLink.stPt.y - s1.OutputLink.length * Real.sin o1.result⟩ : Pt) := by
    rw [moveLinkage, mlCore_OutputLink]
    show mlOutEnF o2 s1 pt s1.InputLink.length s1.OutputLink.length s1.DragLink.length = _
    simp only [mlOutEnF]
    rw [hA2F2]
  constructor
  · rw [henPt2, henPt1, hstPt, hlen]
  · rw [moveLinkage, mlCore_OutputLink]

/-- C6 amended witness: at c6State, a second call whose solver returns
the same root pi/6 reproduces the output link position of the first
call. -/
theorem moveLinkage_twice_same_output_witness :
    (moveLinkage c6o1 (moveLinkage c6o1 c6State ⟨4, -5⟩) ⟨4, -5⟩).OutputLink.enPt =
      (moveLinkage c6o1 c6State ⟨4, -5⟩).OutputLink.enPt ∧
    (moveLinkage c6o1 (moveLinkage c6o1 c6State ⟨4, -5⟩) ⟨4, -5⟩).OutputLink.stPt =
      (moveLinkage c6o1 c6State ⟨4, -5⟩).OutputLink.stPt :=
  moveLinkage_twice_same_output c6o1 c6o1 c6State ⟨4, -5⟩ c6_ok1 (Or.inr rfl)

end FourBar
